import Mathlib

/-!
Verification of the RSMTool true-score (PRMSE) evaluation formulas and of the
notebook cell that renders the true-score evaluation tables.

The repository slice contains:
  - the documentation page defining the evaluation formulas (the authority for
    the mathematics embedded below: variance of measurement errors, the average
    human score H-hat, and the simplified and general formulas for MSE of true
    scores and true-score variance);
  - the comparison notebook cell that renders the true-score evaluation tables
    from a dataframe (embedded below as an explicit heap program);
  - a packaging recipe (no logic).
The compute_prmse function itself lives outside this slice, so its contract is
modelled from the specification where noted.

Scores are embedded as rational numbers: every claim under check is an exact
algebraic identity or an exact error-contract statement, and the documentation
formulas are plain field arithmetic. Division by zero in the rationals yields
zero; every theorem that could touch such a division carries the hypotheses
that rule the degenerate denominators out.
-/

/-- One evaluated response: the system score M, the first human score H, and
the optional second human score H2 (absent on single-scored responses). -/
structure ResponseRecord where
  system_score : ℚ
  human_score_1 : ℚ
  human_score_2 : Option ℚ
deriving DecidableEq, Repr

/-- A response set is an ordered collection of response records. -/
abbrev ResponseSet := List ResponseRecord

/-- A response is double-scored when its second human score is present. -/
def isDouble (r : ResponseRecord) : Bool :=
  r.human_score_2.isSome

/-- N2: number of double-scored responses. -/
def n2 (rs : ResponseSet) : Nat :=
  (rs.filter isDouble).length

/-- N1: number of single-scored responses. -/
def n1 (rs : ResponseSet) : Nat :=
  (rs.filter (fun r => !isDouble r)).length

/-- N: total number of responses. -/
def nTotal (rs : ResponseSet) : Nat :=
  rs.length

/-- Squared difference of the two human scores of a record; zero on
single-scored records, so that summing it over the whole set equals the
documentation sum over the N2 double-scored responses. -/
def sqDiff (r : ResponseRecord) : ℚ :=
  match r.human_score_2 with
  | some h2 => (r.human_score_1 - h2) ^ 2
  | none => 0

/-- Variance of measurement errors in human scores:
sigma_e_sq = (1 / (2 * N2)) * sum over double-scored responses of (H - H2)^2. -/
def sigma_e_sq (rs : ResponseSet) : ℚ :=
  (rs.map sqDiff).sum / (2 * (n2 rs : ℚ))

/-- H-hat for a record: the average of the two human scores when both are
available, the single human score otherwise. -/
def h_hat (r : ResponseRecord) : ℚ :=
  match r.human_score_2 with
  | some h2 => (r.human_score_1 + h2) / 2
  | none => r.human_score_1

/-- c_i: the number of human scores observed for a record (2 or 1). -/
def c (r : ResponseRecord) : ℚ :=
  if isDouble r then 2 else 1

/-- The count-weighted sum of H-hat values, sum over i of c_i * H_hat_i. -/
def weightedSumHhat (rs : ResponseSet) : ℚ :=
  (rs.map (fun r => c r * h_hat r)).sum

/-- The mean of H-hat weighted by score count: the weighted sum divided by the
total weight N1 + 2 * N2 (shown below to equal the sum of the weights c_i).
The documentation leaves the bar over H-hat implicit; this weighted convention
is the one under which its general formulas reduce to its simplified ones. -/
def h_hat_bar (rs : ResponseSet) : ℚ :=
  weightedSumHhat rs / ((n1 rs : ℚ) + 2 * (n2 rs : ℚ))

/-- Modelled from the spec: step 3 of the specification states the weighted
mean with the divisor N instead, H_hat_bar = (sum of c_i * H_hat_i) / N. This
definition follows those words so it can be compared with h_hat_bar above. -/
def h_hat_bar_specN (rs : ResponseSet) : ℚ :=
  weightedSumHhat rs / (nTotal rs : ℚ)

/-- General formula for the mean squared error when predicting true score with
system score:
MSE(T given M) = (sum of c_i * (H_hat_i - M_i)^2 - N * sigma_e_sq) / (N1 + 2 * N2). -/
def mseTrue_general (rs : ResponseSet) : ℚ :=
  ((rs.map (fun r => c r * (h_hat r - r.system_score) ^ 2)).sum
      - (nTotal rs : ℚ) * sigma_e_sq rs)
    / ((n1 rs : ℚ) + 2 * (n2 rs : ℚ))

/-- General formula for the variance of true scores:
sigma_T^2 = (sum of c_i * (H_hat_i - H_hat_bar)^2 - (N - 1) * sigma_e_sq)
divided by ((N - 1) + N2 * (N1 + 2 * N2 - 2) / (N1 + 2 * N2)). -/
def sigmaT_sq_general (rs : ResponseSet) : ℚ :=
  ((rs.map (fun r => c r * (h_hat r - h_hat_bar rs) ^ 2)).sum
      - ((nTotal rs : ℚ) - 1) * sigma_e_sq rs)
    / (((nTotal rs : ℚ) - 1)
      + (n2 rs : ℚ) * ((n1 rs : ℚ) + 2 * (n2 rs : ℚ) - 2)
        / ((n1 rs : ℚ) + 2 * (n2 rs : ℚ)))

/-- Plain (unweighted) mean of the H-hat values. -/
def meanHhat (rs : ResponseSet) : ℚ :=
  (rs.map h_hat).sum / (nTotal rs : ℚ)

/-- MSE(H-hat given M): mean squared error of the system score as a predictor
of H-hat, with the divide-by-N convention of the documentation MSE. -/
def mseObsHhat (rs : ResponseSet) : ℚ :=
  (rs.map (fun r => (h_hat r - r.system_score) ^ 2)).sum / (nTotal rs : ℚ)

/-- Population-style (divide-by-N) variance of the H-hat values. -/
def popVarHhat (rs : ResponseSet) : ℚ :=
  (rs.map (fun r => (h_hat r - meanHhat rs) ^ 2)).sum / (nTotal rs : ℚ)

/-- Sample-style (divide-by-(N-1)) variance of the H-hat values, the sigma
convention of the documentation. -/
def sampleVarHhat (rs : ResponseSet) : ℚ :=
  (rs.map (fun r => (h_hat r - meanHhat rs) ^ 2)).sum / ((nTotal rs : ℚ) - 1)

/-- Simplified formula for MSE of true scores in the all-double-scored case:
MSE(T given M) = MSE(H-hat given M) - sigma_e_sq / 2. -/
def mseTrue_simple (rs : ResponseSet) : ℚ :=
  mseObsHhat rs - sigma_e_sq rs / 2

/-- Simplified formula for the true-score variance in the all-double-scored
case, with the documentation sigma convention (divide by N - 1):
sigma_T^2 = Var(H-hat) - sigma_e_sq / 2. -/
def sigmaT_sq_simple (rs : ResponseSet) : ℚ :=
  sampleVarHhat rs - sigma_e_sq rs / 2

/-- The simplified true-score variance as the specification words it, with
population-style (divide-by-N) variance of H-hat. -/
def sigmaT_sq_simple_pop (rs : ResponseSet) : ℚ :=
  popVarHhat rs - sigma_e_sq rs / 2

/-- The concrete scenario of the specification: 4 responses, all double-scored,
with (H1, H2, M) = (2,2,2), (3,4,3), (4,4,5), (5,6,4). -/
def exampleSet : ResponseSet :=
  [⟨2, 2, some 2⟩, ⟨3, 3, some 4⟩, ⟨5, 4, some 4⟩, ⟨4, 5, some 6⟩]

/-- The estimator result: measurement error variance, true-score variance, MSE
of true scores, and PRMSE. prmse_true is an Option: the value none is the
documented explicit undefined marker used when the estimated true-score
variance is exactly zero (the sentinel option the specification offers as the
implementer choice). -/
structure PrmseResult where
  measurement_error_variance : ℚ
  true_score_variance : ℚ
  mse_true : ℚ
  prmse_true : Option ℚ
deriving DecidableEq, Repr

/-- The error the estimator signals when it cannot proceed. -/
inductive PrmseError where
  | insufficientData
deriving DecidableEq, Repr

/-- Modelled from the spec: the body of compute_prmse is not part of this
repository slice (the documentation only names rsmtool.prmse_utils.compute_prmse),
so the contract and algorithm of specification section 4.1 are followed: fail
with InsufficientDataError when N2 = 0 or N < 2; otherwise compute sigma_e_sq
and the general formulas for MSE(T given M) and the true-score variance, and
set prmse_true = 1 - MSE(T given M) / true_score_variance, with the documented
undefined sentinel (none) when the true-score variance is exactly zero. -/
def compute_prmse (rs : ResponseSet) : Except PrmseError PrmseResult :=
  if n2 rs = 0 ∨ nTotal rs < 2 then
    .error .insufficientData
  else
    let se := sigma_e_sq rs
    let mse := mseTrue_general rs
    let stv := sigmaT_sq_general rs
    .ok { measurement_error_variance := se
          true_score_variance := stv
          mse_true := mse
          prmse_true := if stv = 0 then none else some (1 - mse / stv) }

/-- A dataframe cell: a numeric value, a missing value (NaN), or the dash
placeholder string that the notebook substitutes for missing values. -/
inductive Cell where
  | num (q : ℚ)
  | nan
  | dash
deriving DecidableEq, Repr

/-- A dataframe, embedded as named columns of cells. -/
abbrev Df := List (String × List Cell)

/-- A dataframe is empty when it has no elements (no columns, or only
zero-length columns), matching the pandas empty test. -/
def Df.isEmpty (df : Df) : Bool :=
  df.all (fun p => p.2.isEmpty)

/-- Column selection df[cols]: keep the named columns in the requested order. -/
def selectCols (cols : List String) (df : Df) : Df :=
  cols.filterMap (fun name => (df.find? (fun p => p.1 = name)).map (fun p => (name, p.2)))

/-- The replace call of the notebook: substitute the dash placeholder for
every NaN cell. -/
def replaceNanWithDash (df : Df) : Df :=
  df.map (fun p => (p.1, p.2.map (fun x => match x with | Cell.nan => Cell.dash | y => y)))

/-- A heap of dataframe objects: mutable pandas objects are heap cells named by
numeric references, and an in-place operation is a write to one reference. -/
structure Heap where
  next : Nat
  mem : Nat → Df

/-- Allocate a fresh dataframe object, returning its reference. -/
def Heap.alloc (h : Heap) (d : Df) : Nat × Heap :=
  (h.next, ⟨h.next + 1, fun r => if r = h.next then d else h.mem r⟩)

/-- Overwrite the dataframe object at a reference (an in-place mutation). -/
def Heap.write (h : Heap) (r : Nat) (d : Df) : Heap :=
  ⟨h.next, fun x => if x = r then d else h.mem x⟩

/-- The column list of the variance table in the notebook cell. -/
def variance_columns : List String :=
  ["N", "N_single", "N_double", "h1_var_single", "h1_var_double", "h2_var_double",
    "true_var"]

/-- The column list of the PRMSE table in the notebook cell. -/
def prmse_columns : List String :=
  ["N", "N_single", "N_double", "sys_var_single", "sys_var_double", "mse_true",
    "prmse_true"]

/-- The true-score evaluation notebook cell, over the dataframe heap. tse is
the reference held by the out_dfs dictionary under the true-score-evaluations
key. When that dataframe is empty the cell only renders the no-information
text; otherwise it selects the variance columns, copies them into a fresh
object, replaces NaN with the dash in place on that copy, renders it, and does
the same for the PRMSE columns. The rendered tables are returned as values;
HTML generation and display options are presentation-only and not modelled. -/
def runTrueScoreCell (tse : Nat) (h : Heap) : Option (Df × Df) × Heap :=
  if (h.mem tse).isEmpty then
    (none, h)
  else
    let (r1, h1) := h.alloc (selectCols variance_columns (h.mem tse))
    let h2 := h1.write r1 (replaceNanWithDash (h1.mem r1))
    let t1 := h2.mem r1
    let (r2, h3) := h2.alloc (selectCols prmse_columns (h2.mem tse))
    let h4 := h3.write r2 (replaceNanWithDash (h3.mem r2))
    let t2 := h4.mem r2
    (some (t1, t2), h4)

/-- A one-record response set, double-scored with H = H2 = 1 and M = 0. -/
def oneDoubleSet : ResponseSet :=
  [⟨0, 1, some 1⟩]

/-- A response set of three single-scored records and no double-scored one. -/
def singlesOnlySet : ResponseSet :=
  [⟨1, 2, none⟩, ⟨2, 3, none⟩, ⟨3, 4, none⟩]

/-- Two double-scored records whose human score pairs are identical. -/
def identicalSet : ResponseSet :=
  [⟨1, 2, some 2⟩, ⟨2, 3, some 3⟩]

/-- Two double-scored records with system scores far from the human scores, on
which the PRMSE value is negative. -/
def negExampleSet : ResponseSet :=
  [⟨10, 2, some 2⟩, ⟨0, 4, some 4⟩]

/-- The estimator result on exampleSet. -/
def exResult : PrmseResult :=
  ⟨1/4, 47/24, 3/4, some (29/47)⟩

/-- A concrete true-score evaluation dataframe with one row, holding NaN in the
single-scored variance columns. -/
def exampleDf : Df :=
  [("N", [Cell.num 4]), ("N_single", [Cell.num 0]), ("N_double", [Cell.num 4]),
    ("h1_var_single", [Cell.nan]), ("h1_var_double", [Cell.num 1]),
    ("h2_var_double", [Cell.num 1]), ("true_var", [Cell.num 2]),
    ("sys_var_single", [Cell.nan]), ("sys_var_double", [Cell.num 1]),
    ("mse_true", [Cell.num 1]), ("prmse_true", [Cell.num 1])]

/-- A concrete heap whose reference 0 holds exampleDf. -/
def exampleHeap : Heap :=
  ⟨1, fun _ => exampleDf⟩

/-- The mean of H-hat weighted by score count, written with the sum of the
weights c_i as the divisor. -/
def weightedMeanHhat (rs : ResponseSet) : ℚ :=
  weightedSumHhat rs / (rs.map c).sum

/-- Each squared rater difference is non-negative. -/
theorem sqDiff_nonneg (r : ResponseRecord) : 0 ≤ sqDiff r := by
  unfold sqDiff
  cases r.human_score_2 with
  | none => exact le_refl 0
  | some v => exact sq_nonneg _

/-- When the count of single-scored responses is zero, every response in the
set is double-scored. -/
theorem all_double_of_n1_eq_zero (rs : ResponseSet) (h : n1 rs = 0) :
    ∀ r ∈ rs, isDouble r = true := by
  intro r hr
  have h' : (rs.filter (fun x => !isDouble x)).length = 0 := h
  have hnil : rs.filter (fun x => !isDouble x) = [] := List.length_eq_zero.mp h'
  have := List.filter_eq_nil_iff.mp hnil r hr
  simpa using this

/-- When every response is double-scored, N2 equals the total count. -/
theorem n2_eq_length_of_all_double (rs : ResponseSet)
    (h : ∀ r ∈ rs, isDouble r = true) : n2 rs = rs.length := by
  have : rs.filter isDouble = rs := List.filter_eq_self.mpr h
  simp [n2, this]

/-- When every response is double-scored, a c-weighted sum is twice the plain
sum. -/
theorem sum_c_mul_of_all_double (rs : ResponseSet) (f : ResponseRecord → ℚ)
    (h : ∀ r ∈ rs, isDouble r = true) :
    (rs.map (fun r => c r * f r)).sum = 2 * (rs.map f).sum := by
  induction rs with
  | nil => simp
  | cons a tl ih =>
    have ha : isDouble a = true := h a (List.mem_cons_self a tl)
    have htl : ∀ r ∈ tl, isDouble r = true := fun r hr => h r (List.mem_cons_of_mem a hr)
    have hca : c a = 2 := by simp [c, ha]
    rw [List.map_cons, List.map_cons, List.sum_cons, List.sum_cons, ih htl, hca]
    ring

/-- When every response is double-scored, the count-weighted mean of H-hat is
the plain mean of H-hat. -/
theorem h_hat_bar_eq_meanHhat_of_all_double (rs : ResponseSet)
    (h0 : n1 rs = 0) (h : ∀ r ∈ rs, isDouble r = true) :
    h_hat_bar rs = meanHhat rs := by
  unfold h_hat_bar meanHhat weightedSumHhat nTotal
  rw [sum_c_mul_of_all_double rs h_hat h, h0, n2_eq_length_of_all_double rs h]
  push_cast
  rw [zero_add]
  exact mul_div_mul_left _ _ two_ne_zero

/-- The sum of the weights c_i equals N1 + 2 * N2. -/
theorem sum_c_eq_weights (rs : ResponseSet) :
    (rs.map c).sum = (n1 rs : ℚ) + 2 * (n2 rs : ℚ) := by
  induction rs with
  | nil => simp [n1, n2]
  | cons a tl ih =>
    cases hd : isDouble a with
    | true =>
      have hn1 : n1 (a :: tl) = n1 tl := by simp [n1, List.filter_cons, hd]
      have hn2 : n2 (a :: tl) = n2 tl + 1 := by simp [n2, List.filter_cons, hd]
      have hca : c a = 2 := by simp [c, hd]
      rw [List.map_cons, List.sum_cons, ih, hn1, hn2, hca]
      push_cast
      ring
    | false =>
      have hn1 : n1 (a :: tl) = n1 tl + 1 := by simp [n1, List.filter_cons, hd]
      have hn2 : n2 (a :: tl) = n2 tl := by simp [n2, List.filter_cons, hd]
      have hca : c a = 1 := by simp [c, hd]
      rw [List.map_cons, List.sum_cons, ih, hn1, hn2, hca]
      push_cast
      ring

/-- The single-scored and double-scored counts partition the response set. -/
theorem n1_add_n2_eq_length (rs : ResponseSet) : n1 rs + n2 rs = rs.length := by
  induction rs with
  | nil => simp [n1, n2]
  | cons a tl ih =>
    cases hd : isDouble a with
    | true =>
      have hn1 : n1 (a :: tl) = n1 tl := by simp [n1, List.filter_cons, hd]
      have hn2 : n2 (a :: tl) = n2 tl + 1 := by simp [n2, List.filter_cons, hd]
      simp [hn1, hn2, List.length_cons]
      omega
    | false =>
      have hn1 : n1 (a :: tl) = n1 tl + 1 := by simp [n1, List.filter_cons, hd]
      have hn2 : n2 (a :: tl) = n2 tl := by simp [n2, List.filter_cons, hd]
      simp [hn1, hn2, List.length_cons]
      omega

/-- C1, counterexample: on the fully double-scored four-response scenario the
claimed reduction of the general formulas to the simplified formulas with
population-style (divide-by-N) variance fails: the MSE halves agree, but the
general true-score variance differs from the population-variance simplified
value, so the conjunction claimed for every such response set is false here. -/
theorem c1_popVariance_counterexample :
    n1 exampleSet = 0 ∧ 1 ≤ n2 exampleSet ∧
      ¬(mseTrue_general exampleSet = mseTrue_simple exampleSet ∧
        sigmaT_sq_general exampleSet = sigmaT_sq_simple_pop exampleSet) := by
  refine ⟨rfl, by norm_num [n2, exampleSet, isDouble, List.filter], ?_⟩
  intro hcl
  have := hcl.2
  norm_num [sigmaT_sq_general, sigmaT_sq_simple_pop, popVarHhat, meanHhat, h_hat_bar,
    weightedSumHhat, sigma_e_sq, sqDiff, h_hat, c, n1, n2, nTotal, isDouble, exampleSet,
    List.filter] at this

/-- C1, amended: for every fully double-scored response set (N1 = 0, N2 at
least 1) the general formula for MSE of true scores equals the simplified
formula MSE(H-hat given M) - sigma_e_sq / 2 exactly, and, when N is at least 2,
the general formula for the true-score variance equals the simplified formula
Var(H-hat) - sigma_e_sq / 2 with the sample-style (divide-by-(N-1)) variance of
the documentation sigma convention, not the population-style one. -/
theorem c1_general_reduces_to_simple_all_double (rs : ResponseSet)
    (h0 : n1 rs = 0) (hn2 : 1 ≤ n2 rs) :
    mseTrue_general rs = mseTrue_simple rs ∧
      (2 ≤ nTotal rs → sigmaT_sq_general rs = sigmaT_sq_simple rs) := by
  have hall := all_double_of_n1_eq_zero rs h0
  have hlen : n2 rs = rs.length := n2_eq_length_of_all_double rs hall
  have hpos : 0 < rs.length := by omega
  have hL : ((rs.length : ℚ)) ≠ 0 := Nat.cast_ne_zero.mpr (by omega)
  constructor
  · unfold mseTrue_general mseTrue_simple mseObsHhat nTotal
    rw [sum_c_mul_of_all_double rs _ hall, h0, hlen]
    push_cast
    field_simp
    ring
  · intro hN
    have hL1 : ((rs.length : ℚ)) - 1 ≠ 0 := by
      have h2 : (2 : ℚ) ≤ (rs.length : ℚ) := by exact_mod_cast hN
      intro hzero
      linarith
    unfold sigmaT_sq_general sigmaT_sq_simple sampleVarHhat nTotal
    rw [h_hat_bar_eq_meanHhat_of_all_double rs h0 hall]
    rw [sum_c_mul_of_all_double rs _ hall, h0, hlen]
    simp only [Nat.cast_zero, zero_add]
    set T := (rs.map (fun r => (h_hat r - meanHhat rs) ^ 2)).sum with hT
    set s := sigma_e_sq rs with hs
    set L := ((rs.length : ℚ)) with hLdef
    have hden : L * (2 * L - 2) / (2 * L) = L - 1 := by
      rw [div_eq_iff (mul_ne_zero two_ne_zero hL)]
      ring
    rw [hden, ← two_mul]
    field_simp
    ring

/-- C1, witness: both reductions hold on the concrete fully double-scored
four-response scenario. -/
theorem c1_general_reduces_witness :
    mseTrue_general exampleSet = mseTrue_simple exampleSet ∧
      sigmaT_sq_general exampleSet = sigmaT_sq_simple exampleSet := by
  have h := c1_general_reduces_to_simple_all_double exampleSet rfl
    (by norm_num [n2, exampleSet, isDouble, List.filter])
  exact ⟨h.1, h.2 (by norm_num [nTotal, exampleSet])⟩

/-- C2, counterexample: on a set with one double-scored response and positive
weighted sum, the step-3 formula that divides the weighted sum by N does not
equal the mean of H-hat weighted by score count, so the two descriptions of
the weighted mean given by the specification do not define the same value. -/
theorem c2_specN_mean_counterexample :
    1 ≤ n2 oneDoubleSet ∧
      h_hat_bar_specN oneDoubleSet ≠ weightedMeanHhat oneDoubleSet := by
  constructor
  · norm_num [n2, oneDoubleSet, isDouble, List.filter]
  · norm_num [h_hat_bar_specN, weightedMeanHhat, weightedSumHhat, h_hat, c, nTotal,
      isDouble, oneDoubleSet, List.filter]

/-- C2, amended: the mean of H-hat weighted by score count equals the weighted
sum divided by N1 + 2 * N2 (the sum of the weights), and, when N2 is at least
1, the step-3 formula dividing the weighted sum by N agrees with that weighted
mean exactly when the weighted sum is zero. -/
theorem c2_weighted_mean_amended (rs : ResponseSet) (hn2 : 1 ≤ n2 rs) :
    weightedMeanHhat rs = h_hat_bar rs ∧
      (h_hat_bar_specN rs = weightedMeanHhat rs ↔ weightedSumHhat rs = 0) := by
  have hsum := sum_c_eq_weights rs
  have hsplit := n1_add_n2_eq_length rs
  constructor
  · unfold weightedMeanHhat h_hat_bar
    rw [hsum]
  · have hLpos : 0 < rs.length := by omega
    have hL : (0 : ℚ) < (rs.length : ℚ) := by exact_mod_cast hLpos
    have hW : ((n1 rs : ℚ) + 2 * (n2 rs : ℚ)) = (rs.length : ℚ) + (n2 rs : ℚ) := by
      have hc : (n1 rs : ℚ) + (n2 rs : ℚ) = (rs.length : ℚ) := by exact_mod_cast hsplit
      linarith
    have hK : (1 : ℚ) ≤ (n2 rs : ℚ) := by exact_mod_cast hn2
    unfold h_hat_bar_specN weightedMeanHhat nTotal
    rw [hsum, hW]
    constructor
    · intro heq
      by_contra hWne
      rw [div_eq_div_iff (ne_of_gt hL) (by linarith)] at heq
      have hzero : weightedSumHhat rs * (n2 rs : ℚ) = 0 := by linarith [heq]
      rcases mul_eq_zero.mp hzero with h | h
      · exact hWne h
      · linarith
    · intro h
      rw [h]
      simp

/-- C2, witness: on the one-record double-scored set the weighted mean equals
the weighted sum over N1 + 2 * N2, and the divide-by-N formula agrees with it
exactly when the weighted sum vanishes. -/
theorem c2_weighted_mean_witness :
    weightedMeanHhat oneDoubleSet = h_hat_bar oneDoubleSet ∧
      (h_hat_bar_specN oneDoubleSet = weightedMeanHhat oneDoubleSet ↔
        weightedSumHhat oneDoubleSet = 0) :=
  c2_weighted_mean_amended oneDoubleSet
    (by norm_num [n2, oneDoubleSet, isDouble, List.filter])

/-- C3: compute_prmse signals InsufficientDataError exactly when N2 = 0 or
N < 2, and on every input with N2 at least 1 and N at least 2 it returns a
result and does not signal that error. -/
theorem c3_insufficient_data_contract (rs : ResponseSet) :
    (compute_prmse rs = .error .insufficientData ↔ (n2 rs = 0 ∨ nTotal rs < 2)) ∧
      (1 ≤ n2 rs → 2 ≤ nTotal rs → ∃ res, compute_prmse rs = .ok res) := by
  by_cases hc : n2 rs = 0 ∨ nTotal rs < 2
  · constructor
    · simp [compute_prmse, hc]
    · intro h1 h2
      exfalso
      rcases hc with hc | hc <;> omega
  · constructor
    · simp [compute_prmse, hc]
    · intro _ _
      exact ⟨_, by unfold compute_prmse; rw [if_neg hc]⟩

/-- C3, witness: a set of three single-scored responses (N2 = 0 despite N at
least 2) is rejected with InsufficientDataError, while the fully double-scored
four-response scenario is accepted with a result. -/
theorem c3_insufficient_data_witness :
    compute_prmse singlesOnlySet = .error .insufficientData ∧
      ∃ res, compute_prmse exampleSet = .ok res :=
  ⟨(c3_insufficient_data_contract singlesOnlySet).1.mpr (Or.inl rfl),
    (c3_insufficient_data_contract exampleSet).2
      (by norm_num [n2, exampleSet, isDouble, List.filter])
      (by norm_num [nTotal, exampleSet])⟩

/-- C4: on every accepted input, the returned prmse_true field is the explicit
undefined sentinel (none) when the estimated true-score variance is exactly
zero, and is 1 - MSE(T given M) / true-score variance when that variance is
nonzero; the sentinel choice is the documented implementer option of the
specification, so no division-by-zero value is ever returned. -/
theorem c4_undefined_sentinel_contract (rs : ResponseSet) (res : PrmseResult)
    (h : compute_prmse rs = .ok res) :
    (res.true_score_variance = 0 → res.prmse_true = none) ∧
      (res.true_score_variance ≠ 0 →
        res.prmse_true = some (1 - res.mse_true / res.true_score_variance)) := by
  unfold compute_prmse at h
  by_cases hc : n2 rs = 0 ∨ nTotal rs < 2
  · rw [if_pos hc] at h
    cases h
  · rw [if_neg hc] at h
    injection h with h
    subst h
    constructor
    · intro hz
      simp only at hz ⊢
      rw [if_pos hz]
    · intro hz
      simp only at hz ⊢
      rw [if_neg hz]

/-- C4, witness: on the four-response scenario the estimator returns the
concrete result with nonzero true-score variance 47/24, and its prmse_true is
exactly 1 minus the MSE over that variance. -/
theorem c4_undefined_sentinel_witness :
    exResult.true_score_variance ≠ 0 ∧
      exResult.prmse_true = some (1 - exResult.mse_true / exResult.true_score_variance) := by
  have hok : compute_prmse exampleSet = .ok exResult := by
    norm_num [compute_prmse, exResult, sigmaT_sq_general, mseTrue_general, sampleVarHhat,
      meanHhat, h_hat_bar, weightedSumHhat, sigma_e_sq, sqDiff, h_hat, c, n1, n2, nTotal,
      isDouble, exampleSet, List.filter]
  exact ⟨by norm_num [exResult],
    (c4_undefined_sentinel_contract exampleSet exResult hok).2 (by norm_num [exResult])⟩

/-- C5: on the concrete scenario of 4 fully double-scored responses with
(H1, H2, M) = (2,2,2), (3,4,3), (4,4,5), (5,6,4), the measurement error
variance is 0.25, the per-response H-hat values are 2, 3.5, 4, 5.5 with
weighted mean 3.75, and the general formulas for MSE of true scores and the
true-score variance equal the simplified formulas of the documentation. -/
theorem c5_concrete_scenario :
    sigma_e_sq exampleSet = 1/4 ∧
      exampleSet.map h_hat = [2, 7/2, 4, 11/2] ∧
      h_hat_bar exampleSet = 15/4 ∧
      mseTrue_general exampleSet = mseTrue_simple exampleSet ∧
      sigmaT_sq_general exampleSet = sigmaT_sq_simple exampleSet := by
  norm_num [sigmaT_sq_general, sigmaT_sq_simple, sampleVarHhat, mseTrue_general,
    mseTrue_simple, mseObsHhat, meanHhat, h_hat_bar, weightedSumHhat, sigma_e_sq, sqDiff,
    h_hat, c, n1, n2, nTotal, isDouble, exampleSet, List.filter]

/-- C6: for every response set with at least one double-scored response the
measurement error variance is non-negative. -/
theorem c6_sigma_e_sq_nonneg (rs : ResponseSet) (h : 1 ≤ n2 rs) :
    0 ≤ sigma_e_sq rs := by
  unfold sigma_e_sq
  apply div_nonneg
  · apply List.sum_nonneg
    intro x hx
    rcases List.mem_map.mp hx with ⟨r, _, rfl⟩
    exact sqDiff_nonneg r
  · positivity

/-- C6, witness: the measurement error variance of the four-response scenario
is non-negative. -/
theorem c6_sigma_e_sq_nonneg_witness : 0 ≤ sigma_e_sq exampleSet :=
  c6_sigma_e_sq_nonneg exampleSet (by norm_num [n2, exampleSet, isDouble, List.filter])

/-- C7: for every response set with at least one double-scored response in
which each double-scored record carries identical human scores, the
measurement error variance is exactly zero. -/
theorem c7_sigma_e_sq_zero_identical (rs : ResponseSet) (hn2 : 1 ≤ n2 rs)
    (hall : ∀ r ∈ rs, ∀ x, r.human_score_2 = some x → r.human_score_1 = x) :
    sigma_e_sq rs = 0 := by
  unfold sigma_e_sq
  have hz : (rs.map sqDiff).sum = 0 := by
    apply List.sum_eq_zero
    intro x hx
    rcases List.mem_map.mp hx with ⟨r, hr, rfl⟩
    unfold sqDiff
    cases hs : r.human_score_2 with
    | none => rfl
    | some v =>
      rw [hall r hr v hs]
      ring
  rw [hz, zero_div]

/-- C7, witness: on two double-scored records with identical human score pairs
the measurement error variance is exactly zero. -/
theorem c7_sigma_e_sq_zero_identical_witness : sigma_e_sq identicalSet = 0 := by
  apply c7_sigma_e_sq_zero_identical identicalSet
    (by norm_num [n2, identicalSet, isDouble, List.filter])
  intro r hr x hx
  rcases List.mem_cons.mp hr with rfl | hr
  · exact Option.some.inj hx
  · rcases List.mem_cons.mp hr with rfl | hr
    · exact Option.some.inj hx
    · cases hr

/-- C8: on every accepted input with nonzero estimated true-score variance the
estimator returns exactly the four formula values, with prmse_true exactly
1 - MSE(T given M) / true-score variance, unclamped and unmodified whatever
its magnitude or sign. -/
theorem c8_no_clamping (rs : ResponseSet) (h1 : ¬(n2 rs = 0 ∨ nTotal rs < 2))
    (hz : sigmaT_sq_general rs ≠ 0) :
    compute_prmse rs =
      .ok ⟨sigma_e_sq rs, sigmaT_sq_general rs, mseTrue_general rs,
        some (1 - mseTrue_general rs / sigmaT_sq_general rs)⟩ := by
  unfold compute_prmse
  rw [if_neg h1]
  show Except.ok _ = _
  rw [if_neg hz]

/-- C8, witness: on two double-scored responses whose system scores are far
from the human scores the estimator returns prmse_true = -19, a negative value
preserved as a result rather than clamped or treated as an error. -/
theorem c8_no_clamping_witness :
    compute_prmse negExampleSet =
      .ok ⟨sigma_e_sq negExampleSet, sigmaT_sq_general negExampleSet,
        mseTrue_general negExampleSet,
        some (1 - mseTrue_general negExampleSet / sigmaT_sq_general negExampleSet)⟩ ∧
      1 - mseTrue_general negExampleSet / sigmaT_sq_general negExampleSet = -19 := by
  constructor
  · apply c8_no_clamping
    · norm_num [n2, nTotal, negExampleSet, isDouble, List.filter]
    · norm_num [sigmaT_sq_general, h_hat_bar, weightedSumHhat, sigma_e_sq, sqDiff, h_hat,
        c, n1, n2, nTotal, isDouble, negExampleSet, List.filter]
  · norm_num [sigmaT_sq_general, mseTrue_general, h_hat_bar, weightedSumHhat, sigma_e_sq,
      sqDiff, h_hat, c, n1, n2, nTotal, isDouble, negExampleSet, List.filter]

/-- C9: the estimator is deterministic: two calls on equal response sets give
equal outcomes, and when both calls return results the results agree on every
field. Purity is definitional in this embedding, which is the content of the
claim: the computation has no hidden state. -/
theorem c9_deterministic (rs1 rs2 : ResponseSet) (h : rs1 = rs2) :
    compute_prmse rs1 = compute_prmse rs2 ∧
      ∀ r1 r2, compute_prmse rs1 = .ok r1 → compute_prmse rs2 = .ok r2 →
        r1.measurement_error_variance = r2.measurement_error_variance ∧
          r1.true_score_variance = r2.true_score_variance ∧
          r1.mse_true = r2.mse_true ∧ r1.prmse_true = r2.prmse_true := by
  subst h
  refine ⟨rfl, fun r1 r2 h1 h2 => ?_⟩
  rw [h1] at h2
  injection h2 with h2
  subst h2
  exact ⟨rfl, rfl, rfl, rfl⟩

/-- C9, witness: two calls on the concrete four-response scenario agree. -/
theorem c9_deterministic_witness :
    compute_prmse exampleSet = compute_prmse exampleSet :=
  (c9_deterministic exampleSet exampleSet rfl).1

/-- C10: the notebook cell never mutates its input dataframe: for every heap
and every allocated reference held under the true-score-evaluations key, the
dataframe at that reference is unchanged after the cell runs, and on a
non-empty input both displayed tables are the NaN-to-dash replacements of
fresh copies of the selected columns. -/
theorem c10_cell_preserves_input (tse : Nat) (h : Heap) (href : tse < h.next) :
    (runTrueScoreCell tse h).2.mem tse = h.mem tse ∧
      ((h.mem tse).isEmpty = false →
        (runTrueScoreCell tse h).1 =
          some (replaceNanWithDash (selectCols variance_columns (h.mem tse)),
            replaceNanWithDash (selectCols prmse_columns (h.mem tse)))) := by
  unfold runTrueScoreCell Heap.alloc Heap.write
  by_cases he : (h.mem tse).isEmpty
  · simp [he]
  · have h1 : tse ≠ h.next := Nat.ne_of_lt href
    have h2 : tse ≠ h.next + 1 := by omega
    have h3 : ¬(h.next + 1 = h.next) := by omega
    simp [he, h1, h2, h3]

/-- C10, witness: on a concrete one-row dataframe with NaN entries, the cell
leaves the stored dataframe untouched and displays the two replaced copies. -/
theorem c10_cell_preserves_input_witness :
    (runTrueScoreCell 0 exampleHeap).2.mem 0 = exampleHeap.mem 0 ∧
      (runTrueScoreCell 0 exampleHeap).1 =
        some (replaceNanWithDash (selectCols variance_columns (exampleHeap.mem 0)),
          replaceNanWithDash (selectCols prmse_columns (exampleHeap.mem 0))) :=
  ⟨(c10_cell_preserves_input 0 exampleHeap (by decide)).1,
    (c10_cell_preserves_input 0 exampleHeap (by decide)).2 (by rfl)⟩
